import Mathlib

/-!
# Cookie extractor background pipeline: a shallow embedding

This file embeds the logic of `src/background.js` of the cookie-extractor
browser extension: cookie classification (`categorizeCookie`,
`assessSecurityLevel`), deduplication by the composite key
`name|domain|path` (`removeDuplicateCookies`), the parent-domain logic of
domain-scoped extraction, the summary aggregation (`generateSummary`), the
server health probe (`checkServerAvailability`) and the bounded-retry POST
delivery (`saveCookiesToFile`).

Modelling conventions:
* JS strings are Lean `String`s; `String.prototype.split` and
  `Array.prototype.join` with a one-character separator are embedded as
  the executable functions `jsSplit` / `jsJoin` below.
* Machine-visible effects (the health probe, reads of the browser cookie
  store, POST attempts, retry delays) are recorded in an explicit event
  trace; the network and the cookie store are an oracle `Env` supplied to
  the extraction entry points.
* Wall-clock timestamps (the `extractedAt` metadata, and the timestamp
  inside the generated filename) are real-time behaviour and are not
  modelled; no claim depends on them.
* The JS number `NaN` (arising from `0 / 0` on an empty summary input) and
  `-Infinity` (from `Math.max()` of no arguments) are modelled by `none`.
-/

namespace CookieSpec

/-- A raw cookie record as delivered by the `chrome.cookies` API
(`name`, `value`, `domain`, `path`, `secure`, `httpOnly`, `sameSite`,
`session`, `expirationDate`, `hostOnly`, `storeId`).  `sameSite` is kept
as the raw string the code compares against `"Strict"` / `"Lax"`.
`expirationDate` is the optional numeric expiration instant. -/
structure Cookie where
  name : String
  value : String
  domain : String
  path : String
  secure : Bool
  httpOnly : Bool
  sameSite : String
  session : Bool
  expirationDate : Option Nat
  hostOnly : Bool
  storeId : String
  deriving DecidableEq

/-- JS truthiness of the optional numeric field `cookie.expirationDate`:
`undefined` (here `none`) and the number `0` are falsy. -/
def truthyExpiration (c : Cookie) : Bool :=
  match c.expirationDate with
  | none => false
  | some e => decide (e ≠ 0)

/-- `categorizeCookie` of `background.js` (lines 160-166): a cascade of
early returns, first matching rule wins. -/
def categorizeCookie (c : Cookie) : String :=
  if c.httpOnly && c.secure then "secure-httponly"
  else if c.httpOnly then "httponly"
  else if c.secure then "secure"
  else if c.session then "session"
  else "regular"

/-- The additive score accumulated by `assessSecurityLevel`
(lines 171-177), as the sequence of conditional increments of the source. -/
def securityScore (c : Cookie) : Nat :=
  let score := 0
  let score := if c.secure then score + 2 else score
  let score := if c.httpOnly then score + 2 else score
  let score := if c.sameSite = "Strict" then score + 2 else score
  let score := if c.sameSite = "Lax" then score + 1 else score
  if !c.session && truthyExpiration c then score + 1 else score

/-- `assessSecurityLevel` of `background.js` (lines 171-182): the tier
derived from the additive score by the fixed thresholds 6 and 3. -/
def assessSecurityLevel (c : Cookie) : String :=
  if 6 ≤ securityScore c then "high"
  else if 3 ≤ securityScore c then "medium"
  else "low"

/-- The composite deduplication key built by `removeDuplicateCookies`:
the template literal `name + "|" + domain + "|" + path`. -/
def cookieKey (c : Cookie) : String :=
  c.name ++ "|" ++ c.domain ++ "|" ++ c.path

/-- The `filter` of `removeDuplicateCookies` with its mutable `seen` set
made explicit: a record is kept exactly when its key is not yet in `seen`,
and keeping it adds its key. -/
def removeDupAux (seen : List String) : List Cookie → List Cookie
  | [] => []
  | c :: cs =>
    if cookieKey c ∈ seen then removeDupAux seen cs
    else c :: removeDupAux (cookieKey c :: seen) cs

/-- `removeDuplicateCookies` of `background.js` (lines 187-195). -/
def removeDuplicateCookies (cookies : List Cookie) : List Cookie :=
  removeDupAux [] cookies

/-- Spec-side description of deduplication, for comparison with
`removeDuplicateCookies`: keep each record and delete every later record
whose composite key equals its key (first occurrence wins). -/
def keepFirstByKey : List Cookie → List Cookie
  | [] => []
  | c :: cs =>
    c :: keepFirstByKey (cs.filter (fun d => cookieKey d ≠ cookieKey c))
termination_by l => l.length
decreasing_by
  simp only [List.length_cons]
  exact Nat.lt_succ_of_le (List.length_filter_le _ _)

/-! ## JS string split / join -/

/-- `String.prototype.split` with a one-character separator, on the
character list: splitting at every occurrence of `sep`, keeping empty
chunks, as JS does (`"".split(sep)` is `[""]`). -/
def jsSplitList (sep : Char) : List Char → List (List Char)
  | [] => [[]]
  | c :: cs =>
    if c = sep then [] :: jsSplitList sep cs
    else
      match jsSplitList sep cs with
      | [] => [[c]]
      | w :: ws => (c :: w) :: ws

/-- The text of `Array.prototype.join` after its first element: a
separator before each further chunk. -/
def joinSepRest (sep : Char) : List (List Char) → List Char
  | [] => []
  | w :: ws => sep :: (w ++ joinSepRest sep ws)

/-- `Array.prototype.join` with a one-character separator, on character
lists: chunks interleaved with the separator (`[].join(sep)` is `""`). -/
def joinSepList (sep : Char) : List (List Char) → List Char
  | [] => []
  | w :: ws => w ++ joinSepRest sep ws

/-- `domain.split(sep)` on Lean strings. -/
def jsSplit (sep : Char) (s : String) : List String :=
  (jsSplitList sep s.toList).map String.mk

/-- `parts.join(sep)` on Lean strings. -/
def jsJoin (sep : Char) (parts : List String) : String :=
  String.mk (joinSepList sep (parts.map String.toList))

/-- The parent domain computed by `extractCurrentDomainCookies`
(lines 95-97): `domain.split(".").slice(1).join(".")`, i.e. the hostname
with its leftmost dot-separated label dropped. -/
def parentDomain (domain : String) : String :=
  jsJoin '.' (jsSplit '.' domain).tail

/-! ## Processed cookies and the summary -/

/-- The object built per cookie by `processCookies` (lines 125-155): the
raw fields plus the derived `cookieType`, `securityLevel` and `size`.
The ISO rendering of the expiration instant is not modelled; the field
keeps the raw instant exactly when the source would render it (its JS
truthiness), and is `none` where the source stores `null`. -/
structure ProcessedCookie where
  name : String
  value : String
  domain : String
  path : String
  secure : Bool
  httpOnly : Bool
  sameSite : String
  session : Bool
  expirationDate : Option Nat
  hostOnly : Bool
  storeId : String
  cookieType : String
  securityLevel : String
  size : Nat
  deriving DecidableEq

/-- `processCookies` of `background.js` (lines 125-155): a pure map adding
the derived metadata.  `size` is `(cookie.name + cookie.value).length`. -/
def processCookies (cookies : List Cookie) : List ProcessedCookie :=
  cookies.map fun c =>
    { name := c.name
      value := c.value
      domain := c.domain
      path := c.path
      secure := c.secure
      httpOnly := c.httpOnly
      sameSite := c.sameSite
      session := c.session
      expirationDate := if truthyExpiration c then c.expirationDate else none
      hostOnly := c.hostOnly
      storeId := c.storeId
      cookieType := categorizeCookie c
      securityLevel := assessSecurityLevel c
      size := (c.name ++ c.value).length }

/-- Iteration order of a JS `Set` built from a list: first occurrences, in
insertion order.  `seen` is the set content accumulated so far. -/
def setOrderedAux (seen : List String) : List String → List String
  | [] => []
  | x :: xs =>
    if x ∈ seen then setOrderedAux seen xs
    else x :: setOrderedAux (x :: seen) xs

/-- `[...new Set(l)]` for a list of strings. -/
def jsSetToList (l : List String) : List String :=
  setOrderedAux [] l

/-- `Array.prototype.sort()` on an array of strings: the sorted
permutation under the lexicographic string order.  (The input it is
applied to below has no duplicates, so any correct sort yields this.) -/
def jsSort (l : List String) : List String :=
  List.insertionSort (fun a b : String => a ≤ b) l

/-- `Math.max(...l)` for a list of naturals; `none` models the
`-Infinity` of `Math.max()` with no arguments. -/
def jsMaxNat : List Nat → Option Nat
  | [] => none
  | x :: xs => some (xs.foldl Nat.max x)

/-- JS division `a / b` of two naturals as an exact rational; `none`
models the non-finite result when `b = 0` (in this program that case is
only ever `0 / 0`, i.e. `NaN`). -/
def jsDivNat (a b : Nat) : Option ℚ :=
  if b = 0 then none else some ((a : ℚ) / (b : ℚ))

/-- `Math.round` on the (possibly non-finite) division result: for a
finite `q` it is `⌊q + 1/2⌋` (halves round up); `Math.round(NaN)` is
`NaN`, modelled by `none`. -/
def jsRound (x : Option ℚ) : Option ℤ :=
  x.map fun q => ⌊q + 1 / 2⌋

/-- The summary object of `generateSummary` (lines 313-334).  The two
distribution objects are modelled as their counting functions (a key
absent from the JS object has count 0). -/
structure Summary where
  totalCookies : Nat
  uniqueDomains : Nat
  domains : List String
  cookieTypeDistribution : String → Nat
  securityLevelDistribution : String → Nat
  largestCookie : Option Nat
  averageCookieSize : Option ℤ

/-- The histogram built by the `reduce` calls of `generateSummary`. -/
def countBy (f : ProcessedCookie → String) (cookies : List ProcessedCookie) :
    String → Nat :=
  fun k => (cookies.filter (fun c => f c == k)).length

/-- `generateSummary` of `background.js` (lines 313-334). -/
def generateSummary (cookies : List ProcessedCookie) : Summary :=
  let domains := jsSetToList (cookies.map (fun c => c.domain))
  { totalCookies := cookies.length
    uniqueDomains := domains.length
    domains := jsSort domains
    cookieTypeDistribution := countBy (fun c => c.cookieType) cookies
    securityLevelDistribution := countBy (fun c => c.securityLevel) cookies
    largestCookie := jsMaxNat (cookies.map (fun c => c.size))
    averageCookieSize :=
      jsRound (jsDivNat ((cookies.map (fun c => c.size)).sum) cookies.length) }

/-! ## Delivery: the retry loop of `saveCookiesToFile` -/

/-- A JS `Error` as observed by the retry loop: its `name` and `message`. -/
structure JsError where
  name : String
  message : String
  deriving DecidableEq

/-- What one POST attempt of `saveCookiesToFile` runs into, supplied by
the environment: either `fetch` itself rejects (a network failure, or the
abort fired by the 10-second timeout, whose error has `name`
`"AbortError"`), or a response arrives with the given `ok` flag, HTTP
status and statusText, and a parsed JSON body with the given `success`
flag and optional `error` string. -/
inductive AttemptOutcome where
  | fetchThrew (e : JsError)
  | response (ok : Bool) (status : Nat) (statusText : String)
      (success : Bool) (error : Option String)
  deriving DecidableEq

/-- The error (if any) an attempt ends in, per the body of the `try` block
(lines 258-284): a rejected `fetch` propagates its error; `!response.ok`
throws `Server responded with <status>: <statusText>`; a parsed body with
`success` false throws `Server error: <error || "Unknown error">`;
otherwise the attempt succeeds. -/
def attemptError : AttemptOutcome → Option JsError
  | .fetchThrew e => some e
  | .response ok status statusText success err =>
    if ok = false then
      some { name := "Error"
             message := "Server responded with " ++ toString status ++ ": " ++ statusText }
    else if success = false then
      some { name := "Error", message := "Server error: " ++ err.getD "Unknown error" }
    else none

/-- Character-list helper for `String.prototype.includes`: does the
second list start with the first? -/
def startsWithList : List Char → List Char → Bool
  | [], _ => true
  | _ :: _, [] => false
  | a :: as, b :: bs => a = b && startsWithList as bs

/-- Character-list helper for `String.prototype.includes`: does `needle`
occur as a contiguous run of `haystack`? -/
def containsList (needle : List Char) : List Char → Bool
  | [] => needle.isEmpty
  | c :: cs => startsWithList needle (c :: cs) || containsList needle cs

/-- `haystack.includes(needle)` of JS. -/
def jsIncludes (haystack needle : String) : Bool :=
  containsList needle.toList haystack.toList

/-- The connection-failure test of line 294:
`error.message.includes("Failed to fetch") || error.message.includes("NetworkError")`. -/
def isNetworkMessage (m : String) : Bool :=
  jsIncludes m "Failed to fetch" || jsIncludes m "NetworkError"

/-- The user-facing timeout message of line 293. -/
def timeoutMessage : String :=
  "Server timeout - please check if server is running"

/-- The user-facing connection-failure message of line 295. -/
def connectMessage : String :=
  "Cannot connect to server - please start server with \"npm start\""

/-- The three-way classification of the final attempt's error
(lines 292-298): by `error.name` and the message substrings. -/
def classifyDeliveryError (e : JsError) : String :=
  if e.name = "AbortError" then timeoutMessage
  else if isNetworkMessage e.message then connectMessage
  else "Server error: " ++ e.message

/-- An observable step of an extraction call: the health probe, a read of
the browser cookie store (`chrome.cookies.getAll`, with its optional
domain filter), one POST attempt, or a retry delay of `ms` milliseconds. -/
inductive NetEvent where
  | probe
  | readStore (domain : Option String)
  | post
  | wait (ms : Nat)
  deriving DecidableEq

/-- `maxRetries` of line 253. -/
def maxRetries : Nat := 3

/-- `retryDelay` of line 254 (milliseconds). -/
def retryDelay : Nat := 1000

/-- The `for` loop of `saveCookiesToFile` (lines 256-307), by the number
of attempts still allowed.  `attempt` is the 1-based attempt counter of
the source; on the last allowed attempt a failure is classified and
raised, otherwise the loop waits `retryDelay` and retries.  Returns the
number of the succeeding attempt and the trace of POSTs and waits.
The fuel-0 case is unreachable from `saveCookiesToFile`. -/
def attemptLoop (outcomes : Nat → AttemptOutcome) :
    Nat → Nat → Except String Nat × List NetEvent
  | 0, _ => (.error "", [])
  | remaining + 1, attempt =>
    match attemptError (outcomes attempt) with
    | none => (.ok attempt, [.post])
    | some e =>
      if remaining = 0 then (.error (classifyDeliveryError e), [.post])
      else
        let rest := attemptLoop outcomes remaining (attempt + 1)
        (rest.1, .post :: .wait retryDelay :: rest.2)

/-- `saveCookiesToFile` of `background.js` (lines 240-308), with the
payload construction elided (its timestamps are wall-clock; the body does
not influence the control flow modelled here): the retry loop, starting
at attempt 1 with `maxRetries` attempts allowed. -/
def saveCookiesToFile (outcomes : Nat → AttemptOutcome) :
    Except String Nat × List NetEvent :=
  attemptLoop outcomes maxRetries 1

/-- The number of POST attempts a delivery call makes. -/
def postsMade (outcomes : Nat → AttemptOutcome) : Nat :=
  (saveCookiesToFile outcomes).2.count NetEvent.post

/-! ## The extraction entry points -/

/-- The oracle for one extraction call: the probe's result (`none` when
the probe's `fetch` itself throws, `some ok` for a response with that
`ok` flag), the cookie store's answers, and each POST attempt's
outcome. -/
structure Env where
  probeOutcome : Option Bool
  allCookies : List Cookie
  cookiesFor : String → List Cookie
  outcomes : Nat → AttemptOutcome

/-- `checkServerAvailability` (lines 220-235): `response.ok`, with any
thrown error caught and turned into `false`. -/
def checkServerAvailability (env : Env) : Bool :=
  match env.probeOutcome with
  | some ok => ok
  | none => false

/-- The error message thrown when the probe fails (lines 53 and 83). -/
def serverNotRunningMessage : String :=
  "Server is not running - please start with \"npm start\""

/-- `extractAllCookies` of `background.js` (lines 48-73): probe first,
then read the whole store, process, and deliver; every error is rewrapped
with the `Failed to extract all cookies: ` preamble.  The result carries
`total` and the processed list (the `timestamp` field is wall-clock and
not modelled). -/
def extractAllCookies (env : Env) :
    Except String (Nat × List ProcessedCookie) × List NetEvent :=
  if checkServerAvailability env = false then
    (.error ("Failed to extract all cookies: " ++ serverNotRunningMessage), [.probe])
  else
    let cookies := env.allCookies
    let processed := processCookies cookies
    let save := saveCookiesToFile env.outcomes
    match save.1 with
    | .ok _ => (.ok (cookies.length, processed), .probe :: .readStore none :: save.2)
    | .error msg =>
      (.error ("Failed to extract all cookies: " ++ msg), .probe :: .readStore none :: save.2)

/-- The merged list built by `extractCurrentDomainCookies` before
deduplication (lines 90-102): the exact-domain cookies, then - only when
the hostname has more than two dot-separated labels - the cookies of the
parent domain appended by `cookies.push(...parentCookies)`. -/
def mergedDomainCookies (env : Env) (domain : String) : List Cookie :=
  if 2 < (jsSplit '.' domain).length then
    env.cookiesFor domain ++ env.cookiesFor (parentDomain domain)
  else
    env.cookiesFor domain

/-- The store reads `extractCurrentDomainCookies` performs, in order. -/
def domainReadEvents (domain : String) : List NetEvent :=
  if 2 < (jsSplit '.' domain).length then
    [.readStore (some domain), .readStore (some (parentDomain domain))]
  else
    [.readStore (some domain)]

/-- `extractCurrentDomainCookies` of `background.js` (lines 78-120).
`domain` is the hostname the source resolves via `new URL(url).hostname`;
URL parsing itself is not modelled.  Probe first, then the domain (and
possibly parent-domain) reads, dedup, process, deliver; every error is
rewrapped with the `Failed to extract domain cookies: ` preamble. -/
def extractCurrentDomainCookies (env : Env) (domain : String) :
    Except String (String × Nat × List ProcessedCookie) × List NetEvent :=
  if checkServerAvailability env = false then
    (.error ("Failed to extract domain cookies: " ++ serverNotRunningMessage), [.probe])
  else
    let unique := removeDuplicateCookies (mergedDomainCookies env domain)
    let processed := processCookies unique
    let save := saveCookiesToFile env.outcomes
    match save.1 with
    | .ok _ =>
      (.ok (domain, unique.length, processed), .probe :: (domainReadEvents domain ++ save.2))
    | .error msg =>
      (.error ("Failed to extract domain cookies: " ++ msg),
        .probe :: (domainReadEvents domain ++ save.2))

/-! ## Concrete inputs used by counterexamples and witnesses -/

/-- A cookie with all flags off, for building concrete inputs. -/
def mkCookie (name domain path : String) : Cookie :=
  { name := name
    value := ""
    domain := domain
    path := path
    secure := false
    httpOnly := false
    sameSite := "None"
    session := true
    expirationDate := none
    hostOnly := false
    storeId := "0" }

/-- A fully hardened persistent cookie. -/
def hardenedCookie : Cookie :=
  { name := "sid"
    value := "v"
    domain := "x.com"
    path := "/"
    secure := true
    httpOnly := true
    sameSite := "Strict"
    session := false
    expirationDate := some 1700000000
    hostOnly := false
    storeId := "0" }

/-- A concrete processed cookie with the given domain and size. -/
def sampleProcessed (domain : String) (size : Nat) : ProcessedCookie :=
  { name := "n"
    value := "v"
    domain := domain
    path := "/"
    secure := false
    httpOnly := false
    sameSite := "None"
    session := true
    expirationDate := none
    hostOnly := false
    storeId := "0"
    cookieType := "session"
    securityLevel := "low"
    size := size }

/-- An environment whose probe answers with a non-success status. -/
def downEnv : Env :=
  { probeOutcome := some false
    allCookies := [mkCookie "a" "x.com" "/"]
    cookiesFor := fun _ => [mkCookie "a" "x.com" "/"]
    outcomes := fun _ => .response true 200 "OK" true none }

/-- An environment whose probe succeeds, whose store answers for the
domains of the `a.b.example.com` scenario, and whose POSTs all succeed. -/
def upEnv : Env :=
  { probeOutcome := some true
    allCookies := []
    cookiesFor := fun d =>
      if d = "a.b.example.com" then [mkCookie "exact" "a.b.example.com" "/"]
      else if d = "b.example.com" then [mkCookie "parent" "b.example.com" "/"]
      else []
    outcomes := fun _ => .response true 200 "OK" true none }

/-- Outcomes where every POST attempt succeeds at once. -/
def okOutcomes : Nat → AttemptOutcome :=
  fun _ => .response true 200 "OK" true none

/-! ## Classification theorems -/

/-- C2: for every cookie record, the security score is the sum of +2 if
secure, +2 if httpOnly, +2 if sameSite is Strict, +1 if sameSite is Lax,
+1 if the cookie is persistent with an expiration; the score lies in
[0, 8]; and the tier is exactly "high" when the score is at least 6,
"medium" when it is at least 3 and below 6, and "low" below 3. -/
theorem assessSecurityLevel_spec (c : Cookie) :
    securityScore c =
      (if c.secure then 2 else 0) + (if c.httpOnly then 2 else 0) +
        (if c.sameSite = "Strict" then 2 else 0) +
        (if c.sameSite = "Lax" then 1 else 0) +
        (if c.session = false ∧ truthyExpiration c = true then 1 else 0) ∧
    securityScore c ≤ 8 ∧
    (assessSecurityLevel c = "high" ↔ 6 ≤ securityScore c) ∧
    (assessSecurityLevel c = "medium" ↔ 3 ≤ securityScore c ∧ securityScore c < 6) ∧
    (assessSecurityLevel c = "low" ↔ securityScore c < 3) := by
  refine ⟨?_, ?_, ?_, ?_, ?_⟩
  · simp only [securityScore, Bool.and_eq_true, Bool.not_eq_true']
    split_ifs <;> omega
  · simp only [securityScore]
    split_ifs <;> omega
  · unfold assessSecurityLevel
    split_ifs with h1 h2
    · exact iff_of_true rfl h1
    · exact iff_of_false (by decide) (by omega)
    · exact iff_of_false (by decide) (by omega)
  · unfold assessSecurityLevel
    split_ifs with h1 h2
    · exact iff_of_false (by decide) (by omega)
    · exact iff_of_true rfl ⟨h2, by omega⟩
    · exact iff_of_false (by decide) (by omega)
  · unfold assessSecurityLevel
    split_ifs with h1 h2
    · exact iff_of_false (by decide) (by omega)
    · exact iff_of_false (by decide) (by omega)
    · exact iff_of_true rfl (by omega)

/-- C3: `categorizeCookie` returns the first matching category in the
priority order secure-httponly > httponly > secure > session > regular;
in particular a cookie with both httpOnly and secure set is always
"secure-httponly", never merely "secure" or "httponly". -/
theorem categorizeCookie_spec (c : Cookie) :
    (c.httpOnly = true ∧ c.secure = true → categorizeCookie c = "secure-httponly") ∧
    (c.httpOnly = true ∧ c.secure = false → categorizeCookie c = "httponly") ∧
    (c.httpOnly = false ∧ c.secure = true → categorizeCookie c = "secure") ∧
    (c.httpOnly = false ∧ c.secure = false ∧ c.session = true →
      categorizeCookie c = "session") ∧
    (c.httpOnly = false ∧ c.secure = false ∧ c.session = false →
      categorizeCookie c = "regular") := by
  cases hh : c.httpOnly <;> cases hs : c.secure <;> cases hsn : c.session <;>
    simp [categorizeCookie, hh, hs, hsn]

/-- Witness for C3 at a cookie with both flags set. -/
theorem categorizeCookie_spec_witness :
    categorizeCookie hardenedCookie = "secure-httponly" :=
  (categorizeCookie_spec hardenedCookie).1 ⟨rfl, rfl⟩

/-- The same-site string cannot be both "Strict" and "Lax". -/
lemma not_strict_and_lax (c : Cookie) :
    ¬(c.sameSite = "Strict" ∧ c.sameSite = "Lax") := by
  rintro ⟨h1, h2⟩
  rw [h1] at h2
  exact absurd h2 (by decide)

/-- C10: a cookie whose tier is "high" necessarily has both the secure
and the httpOnly flag set (a score of at least 6 is unreachable without
both +2 contributions), and is therefore categorized "secure-httponly". -/
theorem high_tier_requires_secure_httponly (c : Cookie)
    (h : assessSecurityLevel c = "high") :
    c.secure = true ∧ c.httpOnly = true ∧ categorizeCookie c = "secure-httponly" := by
  have hs : 6 ≤ securityScore c := by
    by_contra hn
    unfold assessSecurityLevel at h
    rw [if_neg hn] at h
    split_ifs at h <;> exact absurd h (by decide)
  have hsec : c.secure = true := by
    cases hsec : c.secure
    · exfalso
      have h5 : securityScore c ≤ 5 := by
        simp [securityScore, hsec]
        split_ifs <;>
          first
            | omega
            | exact absurd ⟨‹c.sameSite = "Strict"›, ‹c.sameSite = "Lax"›⟩
                (not_strict_and_lax c)
      omega
    · rfl
  have hho : c.httpOnly = true := by
    cases hho : c.httpOnly
    · exfalso
      have h5 : securityScore c ≤ 5 := by
        simp [securityScore, hho]
        split_ifs <;>
          first
            | omega
            | exact absurd ⟨‹c.sameSite = "Strict"›, ‹c.sameSite = "Lax"›⟩
                (not_strict_and_lax c)
      omega
    · rfl
  exact ⟨hsec, hho, by simp [categorizeCookie, hsec, hho]⟩

/-- Witness for C10 at a concrete high-tier cookie. -/
theorem high_tier_requires_secure_httponly_witness :
    assessSecurityLevel hardenedCookie = "high" ∧
      categorizeCookie hardenedCookie = "secure-httponly" :=
  ⟨by decide, (high_tier_requires_secure_httponly hardenedCookie (by decide)).2.2⟩

/-! ## Deduplication theorems -/

/-- Unfolding `removeDupAux` against the filter-based description: with
`seen` pre-seeded, the loop deduplicates the records whose keys are not
yet seen. -/
lemma removeDupAux_eq_keepFirst (l : List Cookie) :
    ∀ seen : List String,
      removeDupAux seen l =
        keepFirstByKey (l.filter (fun c => decide (cookieKey c ∉ seen))) := by
  induction l with
  | nil => intro seen; simp [removeDupAux, keepFirstByKey]
  | cons c cs ih =>
    intro seen
    by_cases hc : cookieKey c ∈ seen
    · have hfil : (c :: cs).filter (fun c => decide (cookieKey c ∉ seen)) =
          cs.filter (fun c => decide (cookieKey c ∉ seen)) := by
        simp [List.filter_cons, hc]
      rw [hfil]
      simp only [removeDupAux, if_pos hc]
      exact ih seen
    · have hfil : (c :: cs).filter (fun c => decide (cookieKey c ∉ seen)) =
          c :: cs.filter (fun c => decide (cookieKey c ∉ seen)) := by
        simp [List.filter_cons, hc]
      rw [hfil]
      simp only [removeDupAux, if_neg hc, keepFirstByKey]
      congr 1
      rw [ih (cookieKey c :: seen), List.filter_filter]
      congr 1
      apply List.filter_congr
      intro d _
      simp only [List.mem_cons, not_or, ne_eq, Bool.decide_and]

/-- C1 (counterexample): two records with distinct (name, domain, path)
triples are nevertheless merged, because the joined key
`name + "|" + domain + "|" + path` is not injective: `("a", "b|c", "d")`
and `("a|b", "c", "d")` both produce the key `"a|b|c|d"`, so the second
record is dropped. -/
theorem removeDuplicateCookies_collision_counterexample :
    (mkCookie "a" "b|c" "d").name ≠ (mkCookie "a|b" "c" "d").name ∧
    removeDuplicateCookies [mkCookie "a" "b|c" "d", mkCookie "a|b" "c" "d"] =
      [mkCookie "a" "b|c" "d"] := by
  constructor
  · decide
  · rfl

/-- C1 (amended): `removeDuplicateCookies` keeps exactly the first
occurrence of each distinct joined key `name + "|" + domain + "|" + path`
and drops every later record whose key equals that of an earlier record;
records with distinct keys are never merged.  (`keepFirstByKey` is the
transparent spec-side statement of first-occurrence-wins by key.) -/
theorem removeDuplicateCookies_firstOccurrence (l : List Cookie) :
    removeDuplicateCookies l = keepFirstByKey l := by
  rw [removeDuplicateCookies, removeDupAux_eq_keepFirst]
  congr 1
  apply List.filter_eq_self.mpr
  intro c _
  simp

/-- The output of the dedup loop has pairwise-distinct keys, none of them
already in `seen`. -/
lemma removeDupAux_keys (l : List Cookie) :
    ∀ seen : List String,
      ((removeDupAux seen l).map cookieKey).Nodup ∧
        ∀ c ∈ removeDupAux seen l, cookieKey c ∉ seen := by
  induction l with
  | nil => intro seen; simp [removeDupAux]
  | cons c cs ih =>
    intro seen
    by_cases hc : cookieKey c ∈ seen
    · simpa [removeDupAux, hc] using ih seen
    · obtain ⟨hnd, hmem⟩ := ih (cookieKey c :: seen)
      refine ⟨?_, ?_⟩
      · simp only [removeDupAux, if_neg hc, List.map_cons, List.nodup_cons]
        refine ⟨?_, hnd⟩
        intro hin
        rcases List.mem_map.mp hin with ⟨d, hd, hkey⟩
        have hno := hmem d hd
        rw [hkey] at hno
        exact hno (List.mem_cons_self _ _)
      · intro d hd
        simp only [removeDupAux, if_neg hc, List.mem_cons] at hd
        rcases hd with rfl | hd
        · exact hc
        · exact fun hin => hmem d hd (List.mem_cons_of_mem _ hin)

/-- The dedup loop is the identity on a list whose keys are already
pairwise distinct and disjoint from `seen`. -/
lemma removeDupAux_id (l : List Cookie) :
    ∀ seen : List String, ((l.map cookieKey).Nodup) →
      (∀ c ∈ l, cookieKey c ∉ seen) → removeDupAux seen l = l := by
  induction l with
  | nil => intro seen _ _; rfl
  | cons c cs ih =>
    intro seen hnd hs
    have hc : cookieKey c ∉ seen := hs c (List.mem_cons_self c cs)
    simp only [removeDupAux, if_neg hc]
    congr 1
    rw [List.map_cons] at hnd
    obtain ⟨hhead, htail⟩ := List.nodup_cons.mp hnd
    apply ih _ htail
    intro d hd
    simp only [List.mem_cons, not_or]
    refine ⟨?_, hs d (List.mem_cons_of_mem _ hd)⟩
    intro heq
    have hdm : cookieKey d ∈ cs.map cookieKey := List.mem_map_of_mem _ hd
    rw [heq] at hdm
    exact hhead hdm

/-- C9: deduplication by the composite key is idempotent: applying
`removeDuplicateCookies` to its own output returns that output
unchanged. -/
theorem removeDuplicateCookies_idempotent (l : List Cookie) :
    removeDuplicateCookies (removeDuplicateCookies l) = removeDuplicateCookies l := by
  have h := removeDupAux_keys l []
  exact removeDupAux_id _ [] h.1 (fun c _ => List.not_mem_nil _)

/-! ## Split / join lemmas and the domain-scope theorem -/

/-- A split always yields at least one chunk. -/
lemma jsSplitList_ne_nil (sep : Char) (l : List Char) : jsSplitList sep l ≠ [] := by
  induction l with
  | nil => simp [jsSplitList]
  | cons c cs ih =>
    simp only [jsSplitList]
    split_ifs
    · simp
    · rcases h : jsSplitList sep cs with _ | ⟨w, ws⟩
      · exact absurd h ih
      · simp [h]

/-- No chunk of a split contains the separator. -/
lemma sep_not_mem_of_mem_jsSplitList (sep : Char) (l : List Char) :
    ∀ w ∈ jsSplitList sep l, sep ∉ w := by
  induction l with
  | nil =>
    intro w hw
    simp only [jsSplitList, List.mem_singleton] at hw
    simp [hw]
  | cons c cs ih =>
    intro w hw
    simp only [jsSplitList] at hw
    split_ifs at hw with hcs
    · rcases List.mem_cons.mp hw with rfl | hw
      · simp
      · exact ih w hw
    · rcases h : jsSplitList sep cs with _ | ⟨v, vs⟩
      · exact absurd h (jsSplitList_ne_nil sep cs)
      · rw [h] at hw
        have hv : sep ∉ v := by
          apply ih
          rw [h]
          exact List.mem_cons_self v vs
        rcases List.mem_cons.mp hw with rfl | hw
        · intro hmem
          rcases List.mem_cons.mp hmem with heq | hmem
          · exact hcs heq.symm
          · exact hv hmem
        · apply ih
          rw [h]
          exact List.mem_cons_of_mem v hw

/-- Splitting a separator-free list yields that single chunk. -/
lemma jsSplitList_of_not_mem (sep : Char) (l : List Char) (h : sep ∉ l) :
    jsSplitList sep l = [l] := by
  induction l with
  | nil => rfl
  | cons c cs ih =>
    rw [List.mem_cons, not_or] at h
    obtain ⟨h1, h2⟩ := h
    have hc : ¬(c = sep) := fun he => h1 he.symm
    simp only [jsSplitList, if_neg hc, ih h2]

/-- Splitting after a separator-free chunk and an explicit separator
peels off exactly that chunk. -/
lemma jsSplitList_append_sep (sep : Char) (w rest : List Char) (h : sep ∉ w) :
    jsSplitList sep (w ++ sep :: rest) = w :: jsSplitList sep rest := by
  induction w with
  | nil => simp [jsSplitList]
  | cons c w ih =>
    rw [List.mem_cons, not_or] at h
    obtain ⟨h1, h2⟩ := h
    have hc : ¬(c = sep) := fun he => h1 he.symm
    have hrec := ih h2
    simp only [List.cons_append, jsSplitList, if_neg hc, List.append_eq]
    rw [hrec]

/-- Splitting a join of nonempty, separator-free chunks recovers the
chunks. -/
lemma jsSplitList_joinSepList (sep : Char) :
    ∀ ws : List (List Char), ws ≠ [] → (∀ w ∈ ws, sep ∉ w) →
      jsSplitList sep (joinSepList sep ws) = ws := by
  intro ws
  induction ws with
  | nil => intro h; exact absurd rfl h
  | cons w ws ih =>
    intro _ hfree
    cases ws with
    | nil =>
      simp only [joinSepList, joinSepRest, List.append_nil]
      exact jsSplitList_of_not_mem sep w (hfree w (List.mem_cons_self _ _))
    | cons v vs =>
      have hstep : joinSepList sep (w :: v :: vs) =
          w ++ sep :: joinSepList sep (v :: vs) := rfl
      rw [hstep, jsSplitList_append_sep sep w _ (hfree w (List.mem_cons_self _ _)),
        ih (by simp) (fun u hu => hfree u (List.mem_cons_of_mem _ hu))]

lemma toList_mk (l : List Char) : (String.mk l).toList = l := rfl

lemma mk_toList (s : String) : String.mk s.toList = s := rfl

/-- String-level roundtrip: joining nonempty, separator-free parts and
splitting again recovers the parts. -/
lemma jsSplit_jsJoin (sep : Char) (parts : List String) (hne : parts ≠ [])
    (hfree : ∀ p ∈ parts, sep ∉ p.toList) :
    jsSplit sep (jsJoin sep parts) = parts := by
  unfold jsSplit jsJoin
  rw [toList_mk]
  rw [jsSplitList_joinSepList sep (parts.map String.toList)
    (by simpa using hne)
    (by
      intro w hw
      rcases List.mem_map.mp hw with ⟨p, hp, rfl⟩
      exact hfree p hp)]
  rw [List.map_map]
  have hcomp : (String.mk ∘ String.toList) = id := funext fun s => mk_toList s
  rw [hcomp, List.map_id]

/-- The labels of the parent domain are exactly the labels of the
original hostname with the leftmost label dropped. -/
lemma jsSplit_parentDomain (domain : String)
    (h : 2 < (jsSplit '.' domain).length) :
    jsSplit '.' (parentDomain domain) = (jsSplit '.' domain).tail := by
  unfold parentDomain
  apply jsSplit_jsJoin
  · apply List.ne_nil_of_length_pos
    rw [List.length_tail]
    omega
  · intro p hp
    have hp2 : p ∈ jsSplit '.' domain := List.mem_of_mem_tail hp
    rcases List.mem_map.mp hp2 with ⟨w, hw, rfl⟩
    rw [toList_mk]
    exact sep_not_mem_of_mem_jsSplitList _ _ w hw

/-- C6: a domain-scoped extraction fetches the cookies of the resolved
hostname, and additionally those of the parent domain (the hostname with
its leftmost dot-separated label dropped) if and only if the hostname has
more than two dot-separated labels; the merged list keeps the exact-domain
cookies first, then the parent-domain cookies, and the extraction
deduplicates exactly that merged list. -/
theorem extractCurrentDomain_scope_spec (env : Env) (domain : String) (k : Nat) :
    (2 < (jsSplit '.' domain).length →
      mergedDomainCookies env domain =
        env.cookiesFor domain ++ env.cookiesFor (parentDomain domain) ∧
      jsSplit '.' (parentDomain domain) = (jsSplit '.' domain).tail) ∧
    ((jsSplit '.' domain).length ≤ 2 →
      mergedDomainCookies env domain = env.cookiesFor domain) ∧
    (checkServerAvailability env = true →
      (saveCookiesToFile env.outcomes).1 = .ok k →
      (extractCurrentDomainCookies env domain).1 =
        .ok (domain, (removeDuplicateCookies (mergedDomainCookies env domain)).length,
          processCookies (removeDuplicateCookies (mergedDomainCookies env domain)))) := by
  refine ⟨?_, ?_, ?_⟩
  · intro h
    exact ⟨by rw [mergedDomainCookies, if_pos h], jsSplit_parentDomain domain h⟩
  · intro h
    rw [mergedDomainCookies, if_neg (by omega)]
  · intro hup hsave
    unfold extractCurrentDomainCookies
    rw [if_neg (by rw [hup]; simp)]
    simp only [hsave]

/-- Witness for C6: the spec scenario `a.b.example.com`, whose parent is
`b.example.com`, both domains read, merged exact-first and deduplicated. -/
theorem extractCurrentDomain_scope_spec_witness :
    2 < (jsSplit '.' "a.b.example.com").length ∧
    jsSplit '.' (parentDomain "a.b.example.com") = ["b", "example", "com"] ∧
    (extractCurrentDomainCookies upEnv "a.b.example.com").1 =
      .ok ("a.b.example.com", 2,
        processCookies
          [mkCookie "exact" "a.b.example.com" "/", mkCookie "parent" "b.example.com" "/"]) := by
  have h := extractCurrentDomain_scope_spec upEnv "a.b.example.com" 1
  refine ⟨by decide, ?_, ?_⟩
  · exact ((h.1 (by decide)).2).trans (by decide)
  · exact (h.2.2 rfl rfl).trans rfl

/-! ## Summary theorems -/

/-- Rounding via `⌊q + 1/2⌋` lands within one half of `q`. -/
lemma floor_add_half_close (q : ℚ) : |((⌊q + 1 / 2⌋ : ℤ) : ℚ) - q| ≤ 1 / 2 := by
  have h1 : ((⌊q + 1 / 2⌋ : ℤ) : ℚ) ≤ q + 1 / 2 := Int.floor_le _
  have h2 : q + 1 / 2 < ((⌊q + 1 / 2⌋ : ℤ) : ℚ) + 1 := Int.lt_floor_add_one _
  rw [abs_le]
  constructor <;> linarith

/-- C7: for a non-empty processed list, `averageCookieSize` is the sum of
the size fields divided by the count, rounded to the nearest integer
(halves round up, and the result is within 1/2 of the exact mean); for
the empty list the code divides zero by zero, modelled as `none`. -/
theorem generateSummary_average_spec (cookies : List ProcessedCookie) :
    (cookies ≠ [] →
      (generateSummary cookies).averageCookieSize =
        some ⌊((((cookies.map (fun c => c.size)).sum : ℕ) : ℚ) /
          ((cookies.length : ℕ) : ℚ)) + 1 / 2⌋ ∧
      |((⌊((((cookies.map (fun c => c.size)).sum : ℕ) : ℚ) /
            ((cookies.length : ℕ) : ℚ)) + 1 / 2⌋ : ℤ) : ℚ) -
          (((cookies.map (fun c => c.size)).sum : ℕ) : ℚ) /
            ((cookies.length : ℕ) : ℚ)| ≤ 1 / 2) ∧
    (cookies = [] → (generateSummary cookies).averageCookieSize = none) := by
  constructor
  · intro h
    have hlen : cookies.length ≠ 0 := by
      simpa [List.length_eq_zero] using h
    refine ⟨?_, floor_add_half_close _⟩
    rw [show (generateSummary cookies).averageCookieSize =
        jsRound (jsDivNat ((cookies.map (fun c => c.size)).sum) cookies.length) from rfl]
    simp only [jsDivNat, if_neg hlen]
    rfl
  · intro h
    subst h
    rfl

/-- Witness for C7 at sizes 3 and 4: the mean 3.5 rounds up to 4. -/
theorem generateSummary_average_witness :
    [sampleProcessed "x.com" 3, sampleProcessed "y.com" 4] ≠ ([] : List ProcessedCookie) ∧
    (generateSummary [sampleProcessed "x.com" 3, sampleProcessed "y.com" 4]).averageCookieSize =
      some 4 := by
  refine ⟨by simp, ?_⟩
  have h := (generateSummary_average_spec
    [sampleProcessed "x.com" 3, sampleProcessed "y.com" 4]).1 (by simp)
  rw [h.1]
  congr 1
  rw [Int.floor_eq_iff]
  norm_num [sampleProcessed]

/-- Membership in the `Set`-iteration list: the first-occurrence list of
`l` relative to `seen` holds exactly the members of `l` not in `seen`. -/
lemma mem_setOrderedAux (l : List String) :
    ∀ (seen : List String) (x : String),
      x ∈ setOrderedAux seen l ↔ x ∈ l ∧ x ∉ seen := by
  induction l with
  | nil => intro seen x; simp [setOrderedAux]
  | cons y ys ih =>
    intro seen x
    by_cases hy : y ∈ seen
    · rw [setOrderedAux, if_pos hy, ih]
      constructor
      · rintro ⟨h1, h2⟩
        exact ⟨List.mem_cons_of_mem _ h1, h2⟩
      · rintro ⟨h1, h2⟩
        rcases List.mem_cons.mp h1 with rfl | h1
        · exact absurd hy h2
        · exact ⟨h1, h2⟩
    · rw [setOrderedAux, if_neg hy]
      constructor
      · intro hx
        rcases List.mem_cons.mp hx with rfl | hx
        · exact ⟨List.mem_cons_self _ _, hy⟩
        · rw [ih] at hx
          obtain ⟨h1, h2⟩ := hx
          exact ⟨List.mem_cons_of_mem _ h1, fun hs => h2 (List.mem_cons_of_mem _ hs)⟩
      · rintro ⟨h1, h2⟩
        rcases List.mem_cons.mp h1 with rfl | h1
        · exact List.mem_cons_self _ _
        · by_cases hxy : x = y
          · subst hxy
            exact List.mem_cons_self _ _
          · apply List.mem_cons_of_mem
            rw [ih]
            refine ⟨h1, ?_⟩
            intro hmem
            rcases List.mem_cons.mp hmem with h | h
            · exact hxy h
            · exact h2 h

/-- The `Set`-iteration list never repeats an element. -/
lemma nodup_setOrderedAux (l : List String) :
    ∀ seen : List String, (setOrderedAux seen l).Nodup := by
  induction l with
  | nil => intro seen; simp [setOrderedAux]
  | cons y ys ih =>
    intro seen
    by_cases hy : y ∈ seen
    · simpa [setOrderedAux, hy] using ih seen
    · simp only [setOrderedAux, if_neg hy, List.nodup_cons]
      refine ⟨?_, ih _⟩
      rw [mem_setOrderedAux]
      rintro ⟨_, h2⟩
      exact h2 (List.mem_cons_self _ _)

lemma generateSummary_domains_eq (cookies : List ProcessedCookie) :
    (generateSummary cookies).domains =
      jsSort (jsSetToList (cookies.map (fun c => c.domain))) := rfl

lemma generateSummary_uniqueDomains_eq (cookies : List ProcessedCookie) :
    (generateSummary cookies).uniqueDomains =
      (jsSetToList (cookies.map (fun c => c.domain))).length := rfl

/-- The summary's domain list is sorted under the string order. -/
lemma domains_sorted (cookies : List ProcessedCookie) :
    List.Sorted (fun a b : String => a ≤ b) (generateSummary cookies).domains := by
  rw [generateSummary_domains_eq]
  exact List.sorted_insertionSort _ _

/-- The summary's domain list has no duplicates. -/
lemma domains_nodup (cookies : List ProcessedCookie) :
    (generateSummary cookies).domains.Nodup := by
  rw [generateSummary_domains_eq]
  exact ((List.perm_insertionSort _ _).nodup_iff).mpr (nodup_setOrderedAux _ [])

/-- The summary's domain list holds exactly the domains of the input. -/
lemma mem_domains (cookies : List ProcessedCookie) (s : String) :
    s ∈ (generateSummary cookies).domains ↔ s ∈ cookies.map (fun c => c.domain) := by
  rw [generateSummary_domains_eq]
  unfold jsSort
  rw [(List.perm_insertionSort _ _).mem_iff, jsSetToList, mem_setOrderedAux]
  simp

/-- C8: the summary's `domains` is the lexicographically sorted list of
the distinct domains of the input, without duplicates; `uniqueDomains` is
its length; and the output is a function of the domain set alone, so the
insertion order of the input is irrelevant. -/
theorem generateSummary_domains_spec (cookies : List ProcessedCookie) :
    List.Sorted (fun a b : String => a ≤ b) (generateSummary cookies).domains ∧
    (generateSummary cookies).domains.Nodup ∧
    (∀ s, s ∈ (generateSummary cookies).domains ↔ s ∈ cookies.map (fun c => c.domain)) ∧
    (generateSummary cookies).uniqueDomains = (generateSummary cookies).domains.length ∧
    (∀ cookies' : List ProcessedCookie,
      (∀ s, s ∈ cookies'.map (fun c => c.domain) ↔ s ∈ cookies.map (fun c => c.domain)) →
      (generateSummary cookies').domains = (generateSummary cookies).domains) := by
  refine ⟨domains_sorted _, domains_nodup _, mem_domains _, ?_, ?_⟩
  · rw [generateSummary_uniqueDomains_eq, generateSummary_domains_eq]
    exact ((List.perm_insertionSort _ _).length_eq).symm
  · intro cookies' hsame
    refine List.eq_of_perm_of_sorted ?_ (domains_sorted _) (domains_sorted _)
    refine (List.perm_ext_iff_of_nodup (domains_nodup _) (domains_nodup _)).mpr ?_
    intro s
    rw [mem_domains, mem_domains]
    exact hsame s

/-- Witness for C8: two inputs with the same domain set in opposite
insertion orders produce the same sorted domain list. -/
theorem generateSummary_domains_witness :
    (generateSummary [sampleProcessed "b.com" 1, sampleProcessed "a.com" 2]).domains =
      (generateSummary [sampleProcessed "a.com" 2, sampleProcessed "b.com" 1]).domains := by
  apply (generateSummary_domains_spec
    [sampleProcessed "a.com" 2, sampleProcessed "b.com" 1]).2.2.2.2
  intro s
  constructor <;> intro h <;> simp only [List.map_cons, List.map_nil, List.mem_cons,
    List.not_mem_nil, or_false] at h ⊢ <;> tauto

/-! ## Delivery and probe theorems -/

/-- C5: a delivery call makes between 1 and `maxRetries` POST attempts,
with exactly one fixed `retryDelay` wait between consecutive attempts (the
three possible traces are spelled out); every attempt before the last one
made has failed; if the last attempt made succeeded the call returns that
attempt number; and if it failed, the call made all 3 attempts and raises
exactly one of the three messages chosen by the final error's shape:
the timeout message for an aborted attempt (`name = "AbortError"`), the
connection-failure message when the message indicates a connect failure,
and the generic server-error message otherwise. -/
theorem saveCookiesToFile_retry_spec (outcomes : Nat → AttemptOutcome) :
    1 ≤ postsMade outcomes ∧ postsMade outcomes ≤ maxRetries ∧
    (postsMade outcomes = 1 → (saveCookiesToFile outcomes).2 = [.post]) ∧
    (postsMade outcomes = 2 →
      (saveCookiesToFile outcomes).2 = [.post, .wait retryDelay, .post]) ∧
    (postsMade outcomes = 3 →
      (saveCookiesToFile outcomes).2 =
        [.post, .wait retryDelay, .post, .wait retryDelay, .post]) ∧
    (∀ j, 1 ≤ j → j < postsMade outcomes → attemptError (outcomes j) ≠ none) ∧
    (attemptError (outcomes (postsMade outcomes)) = none →
      (saveCookiesToFile outcomes).1 = .ok (postsMade outcomes)) ∧
    (∀ e, attemptError (outcomes (postsMade outcomes)) = some e →
      postsMade outcomes = maxRetries ∧
      (saveCookiesToFile outcomes).1 = .error (classifyDeliveryError e) ∧
      (e.name = "AbortError" →
        (saveCookiesToFile outcomes).1 = .error timeoutMessage) ∧
      (¬e.name = "AbortError" → isNetworkMessage e.message = true →
        (saveCookiesToFile outcomes).1 = .error connectMessage) ∧
      (¬e.name = "AbortError" → isNetworkMessage e.message = false →
        (saveCookiesToFile outcomes).1 = .error ("Server error: " ++ e.message))) := by
  rcases h1 : attemptError (outcomes 1) with _ | e1
  · have hsave : saveCookiesToFile outcomes = (.ok 1, [.post]) := by
      simp [saveCookiesToFile, maxRetries, attemptLoop, h1]
    have hk : postsMade outcomes = 1 := by
      unfold postsMade
      rw [hsave]
      rfl
    refine ⟨by omega, by rw [hk]; decide, fun _ => by rw [hsave], fun h => by omega,
      fun h => by omega, fun j hj1 hjk => by omega, fun _ => by rw [hsave, hk], ?_⟩
    intro e he
    rw [hk, h1] at he
    exact Option.noConfusion he
  · rcases h2 : attemptError (outcomes 2) with _ | e2
    · have hsave : saveCookiesToFile outcomes = (.ok 2, [.post, .wait retryDelay, .post]) := by
        simp [saveCookiesToFile, maxRetries, attemptLoop, h1, h2]
      have hk : postsMade outcomes = 2 := by
        unfold postsMade
        rw [hsave]
        rfl
      refine ⟨by omega, by rw [hk]; decide, fun h => by omega, fun _ => by rw [hsave],
        fun h => by omega, ?_, fun _ => by rw [hsave, hk], ?_⟩
      · intro j hj1 hjk
        have hj : j = 1 := by omega
        rw [hj, h1]
        simp
      · intro e he
        rw [hk, h2] at he
        exact Option.noConfusion he
    · rcases h3 : attemptError (outcomes 3) with _ | e3
      · have hsave : saveCookiesToFile outcomes =
            (.ok 3, [.post, .wait retryDelay, .post, .wait retryDelay, .post]) := by
          simp [saveCookiesToFile, maxRetries, attemptLoop, h1, h2, h3]
        have hk : postsMade outcomes = 3 := by
          unfold postsMade
          rw [hsave]
          rfl
        refine ⟨by omega, by rw [hk]; decide, fun h => by omega, fun h => by omega,
          fun _ => by rw [hsave], ?_, fun _ => by rw [hsave, hk], ?_⟩
        · intro j hj1 hjk
          have hj : j = 1 ∨ j = 2 := by omega
          rcases hj with rfl | rfl
          · rw [h1]
            simp
          · rw [h2]
            simp
        · intro e he
          rw [hk, h3] at he
          exact Option.noConfusion he
      · have hsave : saveCookiesToFile outcomes = (.error (classifyDeliveryError e3),
            [.post, .wait retryDelay, .post, .wait retryDelay, .post]) := by
          simp [saveCookiesToFile, maxRetries, attemptLoop, h1, h2, h3]
        have hk : postsMade outcomes = 3 := by
          unfold postsMade
          rw [hsave]
          rfl
        refine ⟨by omega, by rw [hk]; decide, fun h => by omega, fun h => by omega,
          fun _ => by rw [hsave], ?_, ?_, ?_⟩
        · intro j hj1 hjk
          have hj : j = 1 ∨ j = 2 := by omega
          rcases hj with rfl | rfl
          · rw [h1]
            simp
          · rw [h2]
            simp
        · intro hnone
          rw [hk, h3] at hnone
          exact Option.noConfusion hnone
        · intro e he
          rw [hk, h3] at he
          have he3 : e3 = e := Option.some.inj he
          subst he3
          refine ⟨by rw [hk]; rfl, by rw [hsave], ?_, ?_, ?_⟩
          · intro hab
            rw [hsave]
            simp [classifyDeliveryError, hab]
          · intro hnab hnet
            rw [hsave]
            simp [classifyDeliveryError, hnab, hnet]
          · intro hnab hnnet
            rw [hsave]
            simp [classifyDeliveryError, hnab, hnnet]

/-- Witness for C5: with a first attempt that succeeds, the call returns
success after exactly one POST. -/
theorem saveCookiesToFile_retry_spec_witness :
    (saveCookiesToFile okOutcomes).1 = .ok (postsMade okOutcomes) ∧
      postsMade okOutcomes = 1 :=
  ⟨(saveCookiesToFile_retry_spec okOutcomes).2.2.2.2.2.2.1 rfl, rfl⟩

/-- C4: the health probe gates every extraction call: when the probe does
not return a success status, both entry points fail with the
server-not-running error, no POST is attempted and the cookie store is
never read; and in every call the probe is the first observable event,
before any store read. -/
theorem probe_gates_extraction (env : Env) (domain : String) :
    (checkServerAvailability env = false →
      (extractAllCookies env).1 =
        .error ("Failed to extract all cookies: " ++ serverNotRunningMessage) ∧
      (extractCurrentDomainCookies env domain).1 =
        .error ("Failed to extract domain cookies: " ++ serverNotRunningMessage) ∧
      NetEvent.post ∉ (extractAllCookies env).2 ∧
      NetEvent.post ∉ (extractCurrentDomainCookies env domain).2 ∧
      (∀ d, NetEvent.readStore d ∉ (extractAllCookies env).2) ∧
      (∀ d, NetEvent.readStore d ∉ (extractCurrentDomainCookies env domain).2)) ∧
    (extractAllCookies env).2.head? = some NetEvent.probe ∧
    (extractCurrentDomainCookies env domain).2.head? = some NetEvent.probe := by
  constructor
  · intro h
    have hall : extractAllCookies env =
        (.error ("Failed to extract all cookies: " ++ serverNotRunningMessage),
          [.probe]) := by
      rw [extractAllCookies.eq_def, if_pos h]
    have hdom : extractCurrentDomainCookies env domain =
        (.error ("Failed to extract domain cookies: " ++ serverNotRunningMessage),
          [.probe]) := by
      rw [extractCurrentDomainCookies.eq_def, if_pos h]
    refine ⟨by rw [hall], by rw [hdom], ?_, ?_, ?_, ?_⟩ <;> simp [hall, hdom]
  · constructor
    · by_cases h : checkServerAvailability env = false
      · simp [extractAllCookies, h]
      · rw [extractAllCookies.eq_def, if_neg h]
        rcases hs : (saveCookiesToFile env.outcomes).1 with msg | val <;> simp [hs]
    · by_cases h : checkServerAvailability env = false
      · simp [extractCurrentDomainCookies, h]
      · rw [extractCurrentDomainCookies.eq_def, if_neg h]
        rcases hs : (saveCookiesToFile env.outcomes).1 with msg | val <;> simp [hs]

/-- Witness for C4 at an environment whose probe reports failure. -/
theorem probe_gates_extraction_witness :
    checkServerAvailability downEnv = false ∧
    (extractAllCookies downEnv).1 =
      .error ("Failed to extract all cookies: " ++ serverNotRunningMessage) ∧
    (extractCurrentDomainCookies downEnv "x.com").1 =
      .error ("Failed to extract domain cookies: " ++ serverNotRunningMessage) :=
  ⟨rfl, ((probe_gates_extraction downEnv "x.com").1 rfl).1,
    ((probe_gates_extraction downEnv "x.com").1 rfl).2.1⟩

end CookieSpec
